import Mathlib

/-!
Formal model of the database core of the business_analyzer repository
(`src/business_analyzer/core/database.py` together with `src/config.py`).

The Python code is embedded shallowly: strings are `List Char` or `String`,
bytes are `List Nat` (each < 256), exceptions become `Except`/`Option`,
and the external database driver, the AES block cipher and the decryption
oracle are parameters of the functions that call them.  Every definition
mirrors the control flow of the source function it is named after.
-/

/-- Characters accepted by the whitelist character class `[a-zA-Z0-9_-]`
of the validation regex in `Database.validate_sql_identifier`. -/
def isSafeIdentChar (c : Char) : Bool :=
  ('a' ≤ c && c ≤ 'z') || ('A' ≤ c && c ≤ 'Z') || ('0' ≤ c && c ≤ '9') ||
    c = '_' || c = '-'

/-- Body of a string once at most one trailing newline is removed.  Python's
`$` anchor matches at the end of the string or just before a single final
newline, so `re.match(r"^[a-zA-Z0-9_-]+$", s)` examines exactly this body. -/
def stripOneTrailingNewline (s : List Char) : List Char :=
  if s.getLast? = some '\n' then s.dropLast else s

/-- Truth value of `re.match(r"^[a-zA-Z0-9_-]+$", identifier)` in Python:
the body before an optional single trailing newline must be nonempty and
consist only of whitelisted characters. -/
def pyMatchSafeIdent (s : List Char) : Bool :=
  !(stripOneTrailingNewline s).isEmpty &&
    (stripOneTrailingNewline s).all isSafeIdentChar

/-- The three `ValueError` cases of `Database.validate_sql_identifier`. -/
inductive IdentErr
  | emptyIdent
  | invalidChars
  | tooLong
deriving DecidableEq

/-- `Database.validate_sql_identifier`: reject falsy (empty) input, then
input not matching the whitelist regex, then input longer than 128
characters; otherwise return the identifier unchanged. -/
def validate_sql_identifier (s : List Char) : Except IdentErr (List Char) :=
  if s.isEmpty then .error .emptyIdent
  else if !pyMatchSafeIdent s then .error .invalidChars
  else if 128 < s.length then .error .tooLong
  else .ok s

/-- String-typed wrapper of `validate_sql_identifier`, as the callers in
`fetch_data` and `get_columns` use it. -/
def validateIdent (s : String) : Except IdentErr String :=
  match validate_sql_identifier s.data with
  | .ok t => .ok (String.mk t)
  | .error e => .error e

/-- Default of `Config.DB_NAME` (env var absent). -/
def DB_NAME : String := "SmartBusiness"

/-- Default of `Config.DB_TABLE` (env var absent). -/
def DB_TABLE : String := "banco_datos"

/-- Default of `Config.DEFAULT_LIMIT` (env var absent). -/
def DEFAULT_LIMIT : Int := 1000

/-- `Config.EXCLUDED_DOCUMENT_CODES` from `src/config.py`. -/
def EXCLUDED_DOCUMENT_CODES : List String := ["XY", "AS", "TS"]

/-- A value passed to the driver as a bound query parameter, never spliced
into the SQL text. -/
inductive SqlParam
  | pInt (n : Int)
  | pStr (s : String)
deriving DecidableEq

/-- Python truthiness fallback `xs or dflt` on an optional list: `None` and
the empty list both fall back to the default. -/
def pyOrList (xs : Option (List String)) (dflt : List String) : List String :=
  match xs with
  | none => dflt
  | some l => if l.isEmpty then dflt else l

/-- Python truthiness of an optional string: `None` and the empty string are
both falsy. -/
def pyOptStr (x : Option String) : Option String :=
  match x with
  | some s => if s.isEmpty then none else some s
  | none => none

/-- Query-construction part of `Database.fetch_data`: default the limit,
validate the database identifier, the table identifier (the argument falls
back to the configured default table when None or empty, via Python
truthiness `table or Config.DB_TABLE`) and every effective excluded code, build the column list, then assemble the SQL text with `%s`
placeholders and the bound-parameter list, appending the date clause chosen
by which dates are truthy.  Mirrors the source's control flow; execution of
the built query is modelled separately. -/
def build_fetch_query (table : Option String) (lim : Option Int)
    (start_date end_date : Option String)
    (excluded_codes : Option (List String)) (columns : Option (List String)) :
    Except IdentErr (String × List SqlParam) := do
  let lim := lim.getD DEFAULT_LIMIT
  let db_name ← validateIdent DB_NAME
  let table_name ← validateIdent ((pyOptStr table).getD DB_TABLE)
  let excluded := pyOrList excluded_codes EXCLUDED_DOCUMENT_CODES
  let _ ← excluded.mapM validateIdent
  let col_str ←
    match columns with
    | some cs =>
        if cs.isEmpty then pure "*"
        else do
          let vs ← cs.mapM validateIdent
          pure (String.intercalate ", " vs)
    | none => pure "*"
  let qp :=
    if excluded.isEmpty then
      ("SELECT TOP %s " ++ col_str ++ " FROM [" ++ db_name ++ "].[dbo].[" ++
         table_name ++ "]",
       [SqlParam.pInt lim])
    else
      ("SELECT TOP %s " ++ col_str ++ " FROM [" ++ db_name ++ "].[dbo].[" ++
         table_name ++ "] WHERE DocumentosCodigo NOT IN (" ++
         String.intercalate ", " (List.replicate excluded.length "%s") ++ ")",
       [SqlParam.pInt lim] ++ excluded.map SqlParam.pStr)
  let qp :=
    match pyOptStr start_date, pyOptStr end_date with
    | some sd, some ed =>
        (qp.1 ++ " AND Fecha BETWEEN %s AND %s",
         qp.2 ++ [SqlParam.pStr sd, SqlParam.pStr ed])
    | some sd, none => (qp.1 ++ " AND Fecha >= %s", qp.2 ++ [SqlParam.pStr sd])
    | none, some ed => (qp.1 ++ " AND Fecha <= %s", qp.2 ++ [SqlParam.pStr ed])
    | none, none => qp
  pure qp

/-- Date filter appended to the SQL text, as a function of which dates are
present (the spec's description of the date clause). -/
def dateClauseText (sd ed : Option String) : String :=
  match sd, ed with
  | some _, some _ => " AND Fecha BETWEEN %s AND %s"
  | some _, none => " AND Fecha >= %s"
  | none, some _ => " AND Fecha <= %s"
  | none, none => ""

/-- Bound parameters contributed by the date filter. -/
def dateClauseParams (sd ed : Option String) : List SqlParam :=
  match sd, ed with
  | some s, some e => [SqlParam.pStr s, SqlParam.pStr e]
  | some s, none => [SqlParam.pStr s]
  | none, some e => [SqlParam.pStr e]
  | none, none => []

/-- Exclusion clause with `n` placeholders (the spec's description of the
`NOT IN` clause). -/
def notInClauseText (n : Nat) : String :=
  " WHERE DocumentosCodigo NOT IN (" ++
    String.intercalate ", " (List.replicate n "%s") ++ ")"

/-- Column-list text of the built query: the comma-joined columns when a
non-empty column list is given, otherwise `*`.  Because validation returns
identifiers unchanged, this equals the validated column text whenever
`build_fetch_query` succeeds. -/
def colStrOf (columns : Option (List String)) : String :=
  match columns with
  | some cs => if cs.isEmpty then "*" else String.intercalate ", " cs
  | none => "*"

deriving instance DecidableEq for Except

/-- One Connection element of a Navicat NCX file: the XML attributes read
by the parser, each possibly absent. -/
structure NcxEntry where
  host : Option String
  userName : Option String
  password : Option String
  port : Option String
  database : Option String
deriving DecidableEq

/-- Connection-details dictionary produced for one NCX entry. -/
structure ConnDetails where
  host : String
  port : Int
  userName : String
  password : String
  database : String
deriving DecidableEq

/-- Python truthiness of an attribute lookup: an absent attribute (None)
and an empty string are both falsy, so `all([host, user, password])` holds
only when all three are present and non-empty. -/
def pyTruthy (o : Option String) : Bool :=
  match o with
  | none => false
  | some s => !s.isEmpty

/-- Python `int()` on a port string: an optional sign followed by at least
one ASCII digit parses to that integer; anything else raises ValueError,
modelled as `none`. -/
def pyInt (s : String) : Option Int :=
  let signDigits : Int × List Char :=
    match s.data with
    | '-' :: rest => (-1, rest)
    | '+' :: rest => (1, rest)
    | cs => (1, cs)
  if signDigits.2 ≠ [] ∧ signDigits.2.all Char.isDigit then
    some (signDigits.1 *
      (signDigits.2.foldl (fun acc c => 10 * acc + (c.toNat - 48)) 0 : Nat))
  else none

/-- Loop of `Database._parse_ncx_file` over the Connection elements:
entries with a falsy Host, UserName or Password are skipped silently;
entries whose password fails to decrypt (the `decrypt` parameter returns
`none`) are skipped with a logged error; for every remaining entry
`int(port)` is evaluated on the Port attribute (default "1433"), and an
unparseable port raises out of the loop into the outer handler — `none`
models that escaped exception. -/
def parseNcxLoop (decrypt : String → Option String) :
    List NcxEntry → Option (List ConnDetails)
  | [] => some []
  | e :: rest =>
    if pyTruthy e.host && pyTruthy e.userName && pyTruthy e.password then
      match decrypt (e.password.getD "") with
      | none => parseNcxLoop decrypt rest
      | some pw =>
        match pyInt (e.port.getD "1433") with
        | none => none
        | some n =>
          match parseNcxLoop decrypt rest with
          | none => none
          | some cs =>
            some ({ host := e.host.getD "", port := n,
                    userName := e.userName.getD "", password := pw,
                    database := e.database.getD "master" } :: cs)
    else parseNcxLoop decrypt rest

/-- `Database._parse_ncx_file`: the outer try/except returns the collected
connections, or the empty list when any exception (such as an unparseable
Port attribute) escapes the loop. -/
def parse_ncx_file (decrypt : String → Option String)
    (entries : List NcxEntry) : List ConnDetails :=
  (parseNcxLoop decrypt entries).getD []

/-- `Database._load_navicat_connection` on an existing file: raise
ConnectionError when no valid connections were parsed, else return the
first connection in document order. -/
def load_navicat_connection (decrypt : String → Option String)
    (entries : List NcxEntry) : Except String ConnDetails :=
  match parse_ncx_file decrypt entries with
  | [] => .error "No valid connections found in NCX file"
  | c :: _ => .ok c

/-- Classification of one NCX entry under a given decryptor: skipped
(falsy attributes, or decryption failure), raising (unparseable Port), or
yielding a connection dictionary. -/
inductive EntryOutcome
  | skipped
  | raised
  | conn (c : ConnDetails)
deriving DecidableEq

/-- Outcome of one entry of the `_parse_ncx_file` loop. -/
def entryOutcome (decrypt : String → Option String) (e : NcxEntry) :
    EntryOutcome :=
  if pyTruthy e.host && pyTruthy e.userName && pyTruthy e.password then
    match decrypt (e.password.getD "") with
    | none => .skipped
    | some pw =>
      match pyInt (e.port.getD "1433") with
      | none => .raised
      | some n =>
        .conn { host := e.host.getD "", port := n,
                userName := e.userName.getD "", password := pw,
                database := e.database.getD "master" }
  else .skipped

/-- Internal state of a `Database` instance: the `_connection` and
`_cursor` attributes, each a driver handle or Python None. -/
structure ConnState where
  connection : Option Nat
  cursor : Option Nat
deriving DecidableEq

/-- Observable interactions performed by one `connect()` call. -/
inductive ConnectAction
  | warnAlreadyConnected
  | driverOpen
  | probeQuery
  | logProbeResult
deriving DecidableEq

/-- Outcomes the external driver can produce during `connect`: the open
call raises or returns a handle, and the `SELECT 1 as test` probe
(cursor.execute followed by fetchone) raises or returns an optional row —
`none` for no row, `some []` for an empty row. -/
structure DriverOracle where
  openResult : Except String Nat
  probeResult : Except String (Option (List Int))
deriving DecidableEq

/-- Result of one `connect()` call: final attribute state, normal or
exceptional outcome, and the interactions performed, in order. -/
structure ConnectResult where
  state : ConnState
  result : Except String Unit
  actions : List ConnectAction
deriving DecidableEq

/-- `Database.connect`: on an already-connected instance only a warning is
logged and self is returned; otherwise the driver open runs and, on
success, the `SELECT 1 as test` probe runs, whose fetched row is only
logged; any exception raised by open or probe is caught, `_connection` is
reset to None, and a ConnectionError propagates.  (The source additionally
rewords the message when it contains "timeout"; the message text is not
modelled further.) -/
def connect (o : DriverOracle) (st : ConnState) : ConnectResult :=
  if st.connection.isSome then
    { state := st, result := .ok (), actions := [.warnAlreadyConnected] }
  else
    match o.openResult with
    | .error e =>
        { state := { st with connection := none },
          result := .error ("Failed to connect to database: " ++ e),
          actions := [.driverOpen] }
    | .ok handle =>
        match o.probeResult with
        | .error e =>
            { state := { st with connection := none },
              result := .error ("Failed to connect to database: " ++ e),
              actions := [.driverOpen, .probeQuery] }
        | .ok _ =>
            { state := { st with connection := some handle },
              result := .ok (),
              actions := [.driverOpen, .probeQuery, .logProbeResult] }

/-- Logging performed by one `close()` call. -/
inductive CloseAction
  | driverClose
  | logClosedOk
  | logCloseWarning
deriving DecidableEq

/-- `Database.close`: when `_connection` is set, the driver close runs
(a failure is logged, not raised) and the finally block resets
`_connection` and `_cursor` to None; when `_connection` is already None
nothing happens.  The function always returns normally — it never
raises. -/
def close (closeOutcome : Except String Unit) (st : ConnState) :
    ConnState × List CloseAction :=
  if st.connection.isSome then
    match closeOutcome with
    | .ok _ => (⟨none, none⟩, [.driverClose, .logClosedOk])
    | .error _ => (⟨none, none⟩, [.driverClose, .logCloseWarning])
  else (st, [])

/-- Errors surfaced by the data-access methods. -/
inductive PyError
  | notConnected
  | queryError (msg : String)
  | valueError (e : IdentErr)
  | driverError (msg : String)
  | attributeNoneCursor
deriving DecidableEq

/-- Shape of one executed query's result: normalized rows and the cursor
description (column names). -/
structure QueryResult where
  rows : List (List (String × String))
  description : List String

/-- Cursor behaviour oracle: outcome of executing one SQL text with bound
parameters on the open connection. -/
structure ExecOracle where
  run : String → List SqlParam → Except String QueryResult

/-- `Database.execute_query` with fetch=True: raises the typed
ConnectionError ("Not connected to database. Call connect() first.")
before touching the cursor when `_connection` is None; otherwise executes
and wraps any driver exception in QueryError.  The second component lists
the query texts actually executed. -/
def execute_query (ex : ExecOracle) (st : ConnState) (q : String)
    (ps : List SqlParam) :
    Except PyError (List (List (String × String))) × List String :=
  if st.connection.isNone then (.error .notConnected, [])
  else
    match ex.run q ps with
    | .error e => (.error (.queryError e), [q])
    | .ok r => (.ok r.rows, [q])

/-- `Database.fetch_data`: builds the query (identifier validation may
raise ValueError first) and delegates execution to `execute_query`. -/
def fetch_data (ex : ExecOracle) (st : ConnState) (table : Option String)
    (lim : Option Int) (start_date end_date : Option String)
    (excluded_codes : Option (List String))
    (columns : Option (List String)) :
    Except PyError (List (List (String × String))) × List String :=
  match build_fetch_query table lim start_date end_date excluded_codes
      columns with
  | .error e => (.error (.valueError e), [])
  | .ok (q, ps) => execute_query ex st q ps

/-- `Database.get_columns`: validates the table identifier (the argument
falls back to the configured default table when None or empty, via Python
truthiness `table or Config.DB_TABLE`) and the database identifier,
builds the zero-row probe query, then calls `self._connection.cursor()`
with no connection check — on an unconnected instance this dereferences
None and raises AttributeError, not the typed ConnectionError; driver
exceptions propagate unwrapped. -/
def get_columns (ex : ExecOracle) (st : ConnState) (table : Option String) :
    Except PyError (List String) × List String :=
  match validateIdent ((pyOptStr table).getD DB_TABLE) with
  | .error e => (.error (.valueError e), [])
  | .ok table_name =>
    match validateIdent DB_NAME with
    | .error e => (.error (.valueError e), [])
    | .ok db_name =>
      let q := "SELECT TOP 0 * FROM [" ++ db_name ++ "].[dbo].[" ++
        table_name ++ "]"
      if st.connection.isNone then (.error .attributeNoneCursor, [])
      else
        match ex.run q [] with
        | .error e => (.error (.driverError e), [q])
        | .ok r => (.ok r.description, [q])


/-- Fixed 16-byte AES key b"libcckeylibcckey" of the legacy scheme (it
parameterizes the abstract AES block permutation below). -/
def navicatKey : List Nat :=
  [108, 105, 98, 99, 99, 107, 101, 121, 108, 105, 98, 99, 99, 107, 101, 121]

/-- Fixed 16-byte AES IV b"libcciv libcciv " of the legacy scheme. -/
def navicatIV : List Nat :=
  [108, 105, 98, 99, 99, 105, 118, 32, 108, 105, 98, 99, 99, 105, 118, 32]

/-- Bytewise xor of two equal-length blocks (CBC chaining). -/
def listXor (a b : List Nat) : List Nat :=
  List.zipWith (fun x y => x ^^^ y) a b

/-- View of a byte string as 16-byte blocks, as the AES library consumes
its buffer; a trailing short chunk arises only from ill-sized input. -/
def chunks16 : List Nat → List (List Nat)
  | [] => []
  | b :: rest =>
    ((b :: rest).take 16) :: chunks16 ((b :: rest).drop 16)
termination_by bs => bs.length
decreasing_by
  simp only [List.length_drop]
  simp only [List.length_cons]
  omega

/-- CBC encryption over 16-byte blocks under the block permutation `E`:
each ciphertext block is `E (previous xor plaintext)`, chained from the
IV. -/
def cbcEncBlocks (E : List Nat → List Nat) (iv : List Nat) :
    List (List Nat) → List (List Nat)
  | [] => []
  | m :: ms =>
    let c := E (listXor iv m)
    c :: cbcEncBlocks E c ms

/-- CBC decryption over 16-byte blocks under the block permutation `D`:
each plaintext block is `previous xor D ciphertext`, chained from the
IV. -/
def cbcDecBlocks (D : List Nat → List Nat) (iv : List Nat) :
    List (List Nat) → List (List Nat)
  | [] => []
  | c :: cs => listXor iv (D c) :: cbcDecBlocks D c cs

/-- PKCS#7 padding to a multiple of 16 bytes (the padding the legacy
encryption side applies before AES-CBC). -/
def pkcs7pad (bs : List Nat) : List Nat :=
  bs ++ List.replicate (16 - bs.length % 16) (16 - bs.length % 16)

/-- `Crypto.Util.Padding.unpad(data, 16)` with pkcs7 style: reject empty
input, input whose length is not a multiple of 16, a final byte outside
1..min(16, len), or a tail that is not padding-length copies of the
padding length; otherwise drop the padding.  `none` models the raised
ValueError. -/
def pkcs7unpad (bs : List Nat) : Option (List Nat) :=
  match bs.getLast? with
  | none => none
  | some n =>
    if bs.length % 16 = 0 ∧ 1 ≤ n ∧ n ≤ 16 ∧ n ≤ bs.length ∧
        (bs.drop (bs.length - n)).all (fun x => x = n) then
      some (bs.take (bs.length - n))
    else none

/-- Lowercase hex digit of a value below 16. -/
def hexDigit (n : Nat) : Char :=
  if n < 10 then Char.ofNat (48 + n) else Char.ofNat (87 + n)

/-- Hex encoding of a byte string, two lowercase digits per byte (the form
in which the NCX file stores the ciphertext). -/
def hexEncode (bs : List Nat) : List Char :=
  bs.flatMap (fun b => [hexDigit (b / 16), hexDigit (b % 16)])

/-- Value of one hex digit, accepting both letter cases as
`bytes.fromhex` does. -/
def hexDigitVal (c : Char) : Option Nat :=
  if '0' ≤ c ∧ c ≤ '9' then some (c.toNat - 48)
  else if 'a' ≤ c ∧ c ≤ 'f' then some (c.toNat - 87)
  else if 'A' ≤ c ∧ c ≤ 'F' then some (c.toNat - 55)
  else none

/-- `bytes.fromhex`: consecutive pairs of hex digits; odd length or a
non-hex character raises ValueError, modelled as `none`.  (ASCII spaces
between pairs, which fromhex also tolerates, never occur in the scheme's
output and are not modelled.) -/
def hexDecode : List Char → Option (List Nat)
  | [] => some []
  | [_] => none
  | c1 :: c2 :: rest =>
    match hexDigitVal c1, hexDigitVal c2, hexDecode rest with
    | some hi, some lo, some bs => some ((16 * hi + lo) :: bs)
    | _, _, _ => none

/-- UTF-8 encoding of one Unicode scalar value, the byte sequence
Python's str.encode("utf-8") emits for one character. -/
def utf8EncodeChar (n : Nat) : List Nat :=
  if n < 128 then [n]
  else if n < 2048 then [192 + n / 64, 128 + n % 64]
  else if n < 65536 then
    [224 + n / 4096, 128 + (n / 64) % 64, 128 + n % 64]
  else
    [240 + n / 262144, 128 + (n / 4096) % 64, 128 + (n / 64) % 64,
     128 + n % 64]

/-- UTF-8 encoding of a string, per character. -/
def utf8Encode (s : List Char) : List Nat :=
  s.flatMap (fun c => utf8EncodeChar c.toNat)

/-- Scalar value of a two-byte UTF-8 sequence. -/
def utf8Val2 (b0 b1 : Nat) : Nat := (b0 - 192) * 64 + (b1 - 128)

/-- Scalar value of a three-byte UTF-8 sequence. -/
def utf8Val3 (b0 b1 b2 : Nat) : Nat :=
  (b0 - 224) * 4096 + (b1 - 128) * 64 + (b2 - 128)

/-- Scalar value of a four-byte UTF-8 sequence. -/
def utf8Val4 (b0 b1 b2 b3 : Nat) : Nat :=
  (b0 - 240) * 262144 + (b1 - 128) * 4096 + (b2 - 128) * 64 + (b3 - 128)

/-- A continuation byte of a UTF-8 sequence. -/
def utf8Cont (b : Nat) : Prop := 128 ≤ b ∧ b < 192

instance (b : Nat) : Decidable (utf8Cont b) := by
  unfold utf8Cont
  infer_instance

mutual

/-- Strict UTF-8 decoding to scalar values, as `bytes.decode("utf-8")`
behaves: truncated sequences, stray continuation bytes, overlong
encodings, surrogates and values beyond U+10FFFF all raise, modelled as
`none`. -/
def utf8Decode : List Nat → Option (List Nat)
  | [] => some []
  | b0 :: rest =>
    if b0 < 128 then (utf8Decode rest).map (fun vs => b0 :: vs)
    else if b0 < 192 then none
    else if b0 < 224 then utf8Dec2 b0 rest
    else if b0 < 240 then utf8Dec3 b0 rest
    else if b0 < 248 then utf8Dec4 b0 rest
    else none
termination_by bs => bs.length

/-- Continuation of a two-byte sequence whose lead byte is `b0`. -/
def utf8Dec2 (b0 : Nat) : List Nat → Option (List Nat)
  | b1 :: rest1 =>
    if utf8Cont b1 ∧ 128 ≤ utf8Val2 b0 b1 then
      (utf8Decode rest1).map (fun vs => utf8Val2 b0 b1 :: vs)
    else none
  | [] => none
termination_by bs => bs.length

/-- Continuation of a three-byte sequence whose lead byte is `b0`. -/
def utf8Dec3 (b0 : Nat) : List Nat → Option (List Nat)
  | b1 :: b2 :: rest2 =>
    if utf8Cont b1 ∧ utf8Cont b2 ∧ 2048 ≤ utf8Val3 b0 b1 b2 ∧
        ¬(55296 ≤ utf8Val3 b0 b1 b2 ∧ utf8Val3 b0 b1 b2 < 57344) then
      (utf8Decode rest2).map (fun vs => utf8Val3 b0 b1 b2 :: vs)
    else none
  | _ => none
termination_by bs => bs.length

/-- Continuation of a four-byte sequence whose lead byte is `b0`. -/
def utf8Dec4 (b0 : Nat) : List Nat → Option (List Nat)
  | b1 :: b2 :: b3 :: rest3 =>
    if utf8Cont b1 ∧ utf8Cont b2 ∧ utf8Cont b3 ∧
        65536 ≤ utf8Val4 b0 b1 b2 b3 ∧ utf8Val4 b0 b1 b2 b3 < 1114112 then
      (utf8Decode rest3).map (fun vs => utf8Val4 b0 b1 b2 b3 :: vs)
    else none
  | _ => none
termination_by bs => bs.length

end

/-- AES fallback branch of `Database._decrypt_navicat_password`,
parameterized by the AES-128 block decryption permutation `D` for the
fixed key b"libcckeylibcckey" (the cipher itself lives in the external
pycryptodome library): `bytes.fromhex` the stored password, CBC-decrypt
under IV b"libcciv libcciv " (the AES library rejects input that is not a
whole number of blocks), strip PKCS#7 padding, decode UTF-8; any failing
step raises, modelled as `none`. -/
def decrypt_navicat_password_aes (D : List Nat → List Nat)
    (hexPassword : List Char) : Option (List Char) :=
  match hexDecode hexPassword with
  | none => none
  | some ct =>
    if ct.length % 16 = 0 then
      match pkcs7unpad ((cbcDecBlocks D navicatIV (chunks16 ct)).flatten) with
      | none => none
      | some padless =>
        match utf8Decode padless with
        | none => none
        | some scalars => some (scalars.map (fun n => Char.ofNat n))
    else none

/-- Modelled from the spec: the encryption direction of the legacy
fixed-key scheme (not present in the repository), stated so the
round-trip claim can be expressed — UTF-8 encode, PKCS#7 pad, CBC-encrypt
under the AES block permutation `E` with the fixed IV, hex-encode. -/
def encrypt_navicat_password_aes (E : List Nat → List Nat)
    (p : List Char) : List Char :=
  hexEncode ((cbcEncBlocks E navicatIV (chunks16 (pkcs7pad (utf8Encode p)))).flatten)

theorem except_bind_ok {ε α β : Type} (a : α) (f : α → Except ε β) :
    ((Except.ok a : Except ε α) >>= f) = f a := rfl

theorem except_bind_err {ε α β : Type} (e : ε) (f : α → Except ε β) :
    ((Except.error e : Except ε α) >>= f) = Except.error e := rfl

theorem validate_ok_eq {s t : List Char}
    (h : validate_sql_identifier s = .ok t) : t = s := by
  unfold validate_sql_identifier at h
  split at h
  · cases h
  · split at h
    · cases h
    · split at h
      · cases h
      · cases h
        rfl

theorem validateIdent_ok {s t : String} (h : validateIdent s = .ok t) :
    t = s := by
  unfold validateIdent at h
  cases hv : validate_sql_identifier s.data with
  | ok u =>
      rw [hv] at h
      cases h
      obtain ⟨d⟩ := s
      rw [validate_ok_eq hv]
  | error e => rw [hv] at h; cases h

theorem mapM_validateIdent_ok :
    ∀ {cs vs : List String}, cs.mapM validateIdent = .ok vs → vs = cs := by
  intro cs
  induction cs with
  | nil => intro vs h; cases h; rfl
  | cons a t ih =>
    intro vs h
    rw [List.mapM_cons] at h
    cases ha : validateIdent a with
    | error e => rw [ha, except_bind_err] at h; cases h
    | ok b =>
      rw [ha, except_bind_ok] at h
      cases ht : t.mapM validateIdent with
      | error e => rw [ht, except_bind_err] at h; cases h
      | ok bs =>
        rw [ht, except_bind_ok] at h
        cases h
        rw [validateIdent_ok ha, ih ht]

theorem pyMatch_ne_nil {s : List Char} (h : pyMatchSafeIdent s = true) :
    s.isEmpty = false := by
  cases s with
  | nil => exact absurd h (by decide)
  | cons a t => rfl

/-- C1 counterexample: the two-character string "a\n" contains a newline,
a character outside `[A-Za-z0-9_-]`, yet `validate_sql_identifier` returns
it unchanged instead of raising, because Python's `$` anchor also matches
just before a single trailing newline. -/
theorem C1_validate_counterexample :
    validate_sql_identifier ['a', '\n'] = .ok ['a', '\n'] ∧
    '\n' ∈ ['a', '\n'] ∧ isSafeIdentChar '\n' = false := by decide

/-- C1 (amended): `validate_sql_identifier` returns its input unchanged
exactly when the input minus at most one trailing newline is a nonempty
string over `[A-Za-z0-9_-]` and the whole input has length at most 128; in
particular every string of 1 to 128 whitelisted characters is returned
unchanged, every other string is rejected except those consisting of a
whitelisted body followed by one final newline, and a successful validation
never returns a sanitized variant, only the input itself. -/
theorem C1_validate_amended (s : List Char) :
    (validate_sql_identifier s = .ok s ↔
      (stripOneTrailingNewline s ≠ [] ∧
        (stripOneTrailingNewline s).all isSafeIdentChar = true ∧
        s.length ≤ 128)) ∧
    ∀ t, validate_sql_identifier s = .ok t → t = s := by
  have hpm : pyMatchSafeIdent s = true ↔
      (stripOneTrailingNewline s ≠ [] ∧
        (stripOneTrailingNewline s).all isSafeIdentChar = true) := by
    unfold pyMatchSafeIdent
    rw [Bool.and_eq_true, Bool.not_eq_true', List.isEmpty_eq_false]
  refine ⟨?_, fun t h => validate_ok_eq h⟩
  constructor
  · intro h
    unfold validate_sql_identifier at h
    split at h
    · cases h
    · split at h
      · cases h
      · split at h
        · cases h
        · next h2 h3 =>
            rw [Bool.not_eq_true', Bool.not_eq_false] at h2
            exact ⟨(hpm.mp h2).1, (hpm.mp h2).2, by omega⟩
  · rintro ⟨h1, h2, h3⟩
    have hm : pyMatchSafeIdent s = true := hpm.mpr ⟨h1, h2⟩
    have hne : s.isEmpty = false := pyMatch_ne_nil hm
    have h4 : ¬(128 < s.length) := by omega
    simp [validate_sql_identifier, hne, hm, h4]

theorem example_validate_ok :
    validateIdent "banco_datos" = .ok "banco_datos" := by decide


theorem except_pure_eq {ε α : Type} (a : α) :
    (pure a : Except ε α) = Except.ok a := rfl

theorem fetch_tail_shape (col_str tbl : String) (lim' : Int)
    (excluded : List String) (sd' ed' : Option String)
    (q : String) (ps : List SqlParam)
    (h : (let qp :=
            if excluded.isEmpty then
              ("SELECT TOP %s " ++ col_str ++ " FROM [" ++ DB_NAME ++
                 "].[dbo].[" ++ tbl ++ "]",
               [SqlParam.pInt lim'])
            else
              ("SELECT TOP %s " ++ col_str ++ " FROM [" ++ DB_NAME ++
                 "].[dbo].[" ++ tbl ++ "] WHERE DocumentosCodigo NOT IN (" ++
                 String.intercalate ", " (List.replicate excluded.length "%s") ++
                 ")",
               [SqlParam.pInt lim'] ++ excluded.map SqlParam.pStr)
          let qp :=
            match sd', ed' with
            | some sd, some ed =>
                (qp.1 ++ " AND Fecha BETWEEN %s AND %s",
                 qp.2 ++ [SqlParam.pStr sd, SqlParam.pStr ed])
            | some sd, none =>
                (qp.1 ++ " AND Fecha >= %s", qp.2 ++ [SqlParam.pStr sd])
            | none, some ed =>
                (qp.1 ++ " AND Fecha <= %s", qp.2 ++ [SqlParam.pStr ed])
            | none, none => qp
          (pure qp : Except IdentErr (String × List SqlParam))) = .ok (q, ps)) :
    q = "SELECT TOP %s " ++ col_str ++ " FROM [" ++ DB_NAME ++ "].[dbo].[" ++
          tbl ++ "]" ++
        (if excluded.isEmpty then "" else notInClauseText excluded.length) ++
        dateClauseText sd' ed' ∧
    ps = SqlParam.pInt lim' ::
           (excluded.map SqlParam.pStr ++ dateClauseParams sd' ed') := by
  simp only [] at h
  rw [except_pure_eq] at h
  have h2 := Except.ok.inj h
  clear h
  have hsplit : ("]" : String) ++ " WHERE DocumentosCodigo NOT IN (" =
      "] WHERE DocumentosCodigo NOT IN (" := rfl
  have hmerge : ∀ x : String,
      ("]" : String) ++ (" WHERE DocumentosCodigo NOT IN (" ++ x) =
        "] WHERE DocumentosCodigo NOT IN (" ++ x := by
    intro x
    rw [← String.append_assoc, hsplit]
  cases hemp : excluded.isEmpty with
  | true =>
    have hnil : excluded = [] := List.isEmpty_iff.mp hemp
    subst hnil
    cases sd' <;> cases ed' <;>
      simp [Prod.mk.injEq] at h2 <;>
      obtain ⟨hq, hp⟩ := h2 <;> subst hq <;> subst hp <;>
      simp [dateClauseText, dateClauseParams, String.append_assoc]
  | false =>
    cases sd' <;> cases ed' <;>
      simp only [hemp] at h2 <;>
      simp [Prod.mk.injEq] at h2 <;>
      obtain ⟨hq, hp⟩ := h2 <;> subst hq <;> subst hp <;>
      simp [hemp, dateClauseText, dateClauseParams, notInClauseText, hmerge,
        String.append_assoc, List.append_assoc]

theorem build_fetch_query_shape
    (table : Option String) (lim : Option Int) (sd ed : Option String)
    (ec : Option (List String)) (cols : Option (List String))
    (q : String) (ps : List SqlParam)
    (h : build_fetch_query table lim sd ed ec cols = .ok (q, ps)) :
    q = "SELECT TOP %s " ++ colStrOf cols ++ " FROM [" ++ DB_NAME ++
          "].[dbo].[" ++ ((pyOptStr table).getD DB_TABLE) ++ "]" ++
        (if (pyOrList ec EXCLUDED_DOCUMENT_CODES).isEmpty then ""
         else notInClauseText (pyOrList ec EXCLUDED_DOCUMENT_CODES).length) ++
        dateClauseText (pyOptStr sd) (pyOptStr ed) ∧
    ps = SqlParam.pInt (lim.getD DEFAULT_LIMIT) ::
           ((pyOrList ec EXCLUDED_DOCUMENT_CODES).map SqlParam.pStr ++
            dateClauseParams (pyOptStr sd) (pyOptStr ed)) := by
  unfold build_fetch_query at h
  rw [show validateIdent DB_NAME = Except.ok DB_NAME from by decide] at h
  rw [except_bind_ok] at h
  cases htb : validateIdent ((pyOptStr table).getD DB_TABLE) with
  | error e => rw [htb, except_bind_err] at h; cases h
  | ok tname =>
    rw [htb, except_bind_ok] at h
    obtain rfl : tname = (pyOptStr table).getD DB_TABLE := validateIdent_ok htb
    simp only [] at h
    cases hex : (pyOrList ec EXCLUDED_DOCUMENT_CODES).mapM validateIdent with
    | error e => rw [hex, except_bind_err] at h; cases h
    | ok vs =>
      rw [hex, except_bind_ok] at h
      try simp only [] at h
      cases cols with
      | none =>
        rw [pure_bind] at h
        try simp only [] at h
        exact fetch_tail_shape "*" ((pyOptStr table).getD DB_TABLE)
          (lim.getD DEFAULT_LIMIT) (pyOrList ec EXCLUDED_DOCUMENT_CODES)
          (pyOptStr sd) (pyOptStr ed) q ps h
      | some cs =>
        try simp only [] at h
        cases hcse : cs.isEmpty with
        | true =>
          rw [if_pos hcse, pure_bind] at h
          try simp only [] at h
          have hc : colStrOf (some cs) = "*" := by
            simp [colStrOf, hcse]
          rw [hc]
          exact fetch_tail_shape "*" ((pyOptStr table).getD DB_TABLE)
            (lim.getD DEFAULT_LIMIT) (pyOrList ec EXCLUDED_DOCUMENT_CODES)
            (pyOptStr sd) (pyOptStr ed) q ps h
        | false =>
          rw [if_neg (by simp [hcse])] at h
          cases hm2 : cs.mapM validateIdent with
          | error e => rw [hm2, except_bind_err] at h; cases h
          | ok vs2 =>
            rw [hm2, except_bind_ok, pure_bind] at h
            try simp only [] at h
            have hc : colStrOf (some cs) = String.intercalate ", " vs2 := by
              simp [colStrOf, hcse, mapM_validateIdent_ok hm2]
            rw [hc]
            exact fetch_tail_shape (String.intercalate ", " vs2)
              ((pyOptStr table).getD DB_TABLE) (lim.getD DEFAULT_LIMIT)
              (pyOrList ec EXCLUDED_DOCUMENT_CODES)
              (pyOptStr sd) (pyOptStr ed) q ps h

/-- Witness for C1: a concrete one-character identifier is returned
unchanged by validation. -/
theorem C1_validate_witness :
    validate_sql_identifier ['a'] = .ok ['a'] :=
  (C1_validate_amended ['a']).1.mpr (by decide)

/-- C2: whenever `fetch_data` successfully builds a query, the SQL text is
`SELECT TOP %s` followed by the column list (the validated columns joined
by commas, or `*`), the bracketed validated database and table names, a
`WHERE DocumentosCodigo NOT IN` clause holding one `%s` placeholder per
excluded code appended exactly when the effective excluded-code list is
non-empty, and then the date clause selected by which dates are present
(`BETWEEN` for both, `>=` for start only, `<=` for end only); the limit,
the excluded-code values and the dates appear only in the bound-parameter
list, in that order, and are never spliced into the SQL text. -/
theorem C2_fetch_query_text
    (table : Option String) (lim : Option Int) (sd ed : Option String)
    (ec : Option (List String)) (cols : Option (List String))
    (q : String) (ps : List SqlParam)
    (h : build_fetch_query table lim sd ed ec cols = .ok (q, ps)) :
    q = "SELECT TOP %s " ++ colStrOf cols ++ " FROM [" ++ DB_NAME ++
          "].[dbo].[" ++ ((pyOptStr table).getD DB_TABLE) ++ "]" ++
        (if (pyOrList ec EXCLUDED_DOCUMENT_CODES).isEmpty then ""
         else notInClauseText (pyOrList ec EXCLUDED_DOCUMENT_CODES).length) ++
        dateClauseText (pyOptStr sd) (pyOptStr ed) ∧
    ps = SqlParam.pInt (lim.getD DEFAULT_LIMIT) ::
           ((pyOrList ec EXCLUDED_DOCUMENT_CODES).map SqlParam.pStr ++
            dateClauseParams (pyOptStr sd) (pyOptStr ed)) :=
  build_fetch_query_shape table lim sd ed ec cols q ps h

/-- Witness for C2: the query built for table t1, limit 50, a start date,
one excluded code and two columns has exactly the stated text and
parameter list. -/
theorem C2_fetch_query_witness :
    "SELECT TOP %s a, b FROM [SmartBusiness].[dbo].[t1] WHERE DocumentosCodigo NOT IN (%s) AND Fecha >= %s" =
      "SELECT TOP %s " ++ colStrOf (some ["a", "b"]) ++ " FROM [" ++ DB_NAME ++
        "].[dbo].[" ++ ((pyOptStr (some "t1")).getD DB_TABLE) ++ "]" ++
      (if (pyOrList (some ["XY"]) EXCLUDED_DOCUMENT_CODES).isEmpty then ""
       else notInClauseText (pyOrList (some ["XY"]) EXCLUDED_DOCUMENT_CODES).length) ++
      dateClauseText (pyOptStr (some "2024-01-01")) (pyOptStr none) ∧
    [SqlParam.pInt 50, SqlParam.pStr "XY", SqlParam.pStr "2024-01-01"] =
      SqlParam.pInt ((some (50 : Int)).getD DEFAULT_LIMIT) ::
        ((pyOrList (some ["XY"]) EXCLUDED_DOCUMENT_CODES).map SqlParam.pStr ++
         dateClauseParams (pyOptStr (some "2024-01-01")) (pyOptStr none)) :=
  C2_fetch_query_text (some "t1") (some 50) (some "2024-01-01") none
    (some ["XY"]) (some ["a", "b"]) _ _ (by decide)

/-- C10: passing an explicitly empty excluded-codes list does not disable
exclusions: the `or` fallback substitutes the configured default list, so
the build is identical to passing the default ["XY", "AS", "TS"], the SQL
text still carries a `WHERE DocumentosCodigo NOT IN` clause with three
placeholders, the three default codes are bound as parameters, and no value
of this argument yields an empty effective excluded-code list while the
configured default is non-empty. -/
theorem C10_empty_excluded_codes (table : Option String) (lim : Option Int)
    (sd ed : Option String) (cols : Option (List String))
    (q : String) (ps : List SqlParam)
    (h : build_fetch_query table lim sd ed (some []) cols = .ok (q, ps)) :
    build_fetch_query table lim sd ed (some []) cols =
      build_fetch_query table lim sd ed (some EXCLUDED_DOCUMENT_CODES) cols ∧
    (∀ ec : Option (List String),
      (pyOrList ec EXCLUDED_DOCUMENT_CODES).isEmpty = false) ∧
    q = "SELECT TOP %s " ++ colStrOf cols ++ " FROM [" ++ DB_NAME ++
          "].[dbo].[" ++ ((pyOptStr table).getD DB_TABLE) ++ "]" ++ notInClauseText 3 ++
        dateClauseText (pyOptStr sd) (pyOptStr ed) ∧
    ps = SqlParam.pInt (lim.getD DEFAULT_LIMIT) ::
           ([SqlParam.pStr "XY", SqlParam.pStr "AS", SqlParam.pStr "TS"] ++
            dateClauseParams (pyOptStr sd) (pyOptStr ed)) := by
  refine ⟨rfl, ?_, ?_, ?_⟩
  · intro ec
    cases ec with
    | none => rfl
    | some l =>
      cases hl : l.isEmpty with
      | true => simp [pyOrList, hl, EXCLUDED_DOCUMENT_CODES]
      | false => simp [pyOrList, hl]
  · have hq := (build_fetch_query_shape _ _ _ _ _ _ _ _ h).1
    simpa [pyOrList, EXCLUDED_DOCUMENT_CODES, notInClauseText] using hq
  · have hp := (build_fetch_query_shape _ _ _ _ _ _ _ _ h).2
    simpa [pyOrList, EXCLUDED_DOCUMENT_CODES] using hp

/-- Witness for C10: with an explicitly empty excluded-codes list and all
other arguments defaulted, the built query still excludes the three default
document codes. -/
theorem C10_witness : build_fetch_query none none none none (some []) none =
      build_fetch_query none none none none (some EXCLUDED_DOCUMENT_CODES)
        none ∧
    "SELECT TOP %s * FROM [SmartBusiness].[dbo].[banco_datos] WHERE DocumentosCodigo NOT IN (%s, %s, %s)" =
      "SELECT TOP %s " ++ colStrOf none ++ " FROM [" ++ DB_NAME ++
        "].[dbo].[" ++ ((pyOptStr none).getD DB_TABLE) ++ "]" ++
        notInClauseText 3 ++ dateClauseText (pyOptStr none) (pyOptStr none) ∧
    [SqlParam.pInt 1000, SqlParam.pStr "XY", SqlParam.pStr "AS",
        SqlParam.pStr "TS"] =
      SqlParam.pInt ((none : Option Int).getD DEFAULT_LIMIT) ::
        ([SqlParam.pStr "XY", SqlParam.pStr "AS", SqlParam.pStr "TS"] ++
         dateClauseParams (pyOptStr none) (pyOptStr none)) := by
  have h := C10_empty_excluded_codes none none none none none
    "SELECT TOP %s * FROM [SmartBusiness].[dbo].[banco_datos] WHERE DocumentosCodigo NOT IN (%s, %s, %s)"
    [SqlParam.pInt 1000, SqlParam.pStr "XY", SqlParam.pStr "AS",
      SqlParam.pStr "TS"] (by decide)
  exact ⟨h.1, h.2.2.1, h.2.2.2⟩

theorem parseNcxLoop_cons (d : String → Option String) (e : NcxEntry)
    (rest : List NcxEntry) :
    parseNcxLoop d (e :: rest) =
      match entryOutcome d e with
      | .skipped => parseNcxLoop d rest
      | .raised => none
      | .conn c =>
        match parseNcxLoop d rest with
        | none => none
        | some cs => some (c :: cs) := by
  simp only [parseNcxLoop]
  unfold entryOutcome
  cases hb : (pyTruthy e.host && pyTruthy e.userName && pyTruthy e.password) with
  | false => rfl
  | true =>
    cases hd : d (e.password.getD "") with
    | none => rfl
    | some pw =>
      cases hp : pyInt (e.port.getD "1433") with
      | none => rfl
      | some n => rfl

theorem parseNcxLoop_cons_skipped (d : String → Option String) (e : NcxEntry)
    (rest : List NcxEntry) (h : entryOutcome d e = .skipped) :
    parseNcxLoop d (e :: rest) = parseNcxLoop d rest := by
  rw [parseNcxLoop_cons, h]

theorem parseNcxLoop_cons_conn (d : String → Option String) (e : NcxEntry)
    (rest : List NcxEntry) (c : ConnDetails)
    (h : entryOutcome d e = .conn c) :
    parseNcxLoop d (e :: rest) =
      match parseNcxLoop d rest with
      | none => none
      | some cs => some (c :: cs) := by
  rw [parseNcxLoop_cons, h]

theorem parseNcxLoop_cons_raised (d : String → Option String) (e : NcxEntry)
    (rest : List NcxEntry) (h : entryOutcome d e = .raised) :
    parseNcxLoop d (e :: rest) = none := by
  rw [parseNcxLoop_cons, h]

theorem parseNcxLoop_skip_front (d : String → Option String)
    (pre rest : List NcxEntry)
    (hpre : ∀ e' ∈ pre, entryOutcome d e' = .skipped) :
    parseNcxLoop d (pre ++ rest) = parseNcxLoop d rest := by
  induction pre with
  | nil => rfl
  | cons a t ih =>
    rw [List.cons_append,
      parseNcxLoop_cons_skipped d a (t ++ rest) (hpre a (by simp)),
      ih (fun e' he' => hpre e' (by simp [he']))]

theorem parseNcxLoop_no_raise (d : String → Option String)
    (post : List NcxEntry)
    (hpost : ∀ e' ∈ post, entryOutcome d e' ≠ .raised) :
    ∃ cs, parseNcxLoop d post = some cs := by
  induction post with
  | nil => exact ⟨[], rfl⟩
  | cons a t ih =>
    obtain ⟨cs, hcs⟩ := ih (fun e' he' => hpost e' (by simp [he']))
    cases ho : entryOutcome d a with
    | skipped => exact ⟨cs, by rw [parseNcxLoop_cons_skipped d a t ho, hcs]⟩
    | raised => exact absurd ho (hpost a (by simp))
    | conn c =>
      refine ⟨c :: cs, ?_⟩
      rw [parseNcxLoop_cons_conn d a t c ho, hcs]

/-- C3 counterexample: the first entry is fully valid (all attributes
present, password decrypts), yet because a later entry carries an
unparseable Port attribute the whole parse aborts via the outer exception
handler: the file resolves to no connection at all instead of the first
valid entry. -/
theorem C3_first_valid_counterexample :
    entryOutcome (fun s => some s)
      { host := some "h", userName := some "u", password := some "p",
        port := none, database := none } =
      .conn { host := "h", port := 1433, userName := "u", password := "p",
              database := "master" } ∧
    load_navicat_connection (fun s => some s)
      [{ host := some "h", userName := some "u", password := some "p",
         port := none, database := none },
       { host := some "h2", userName := some "u2", password := some "p2",
         port := some "bad", database := none }] =
      .error "No valid connections found in NCX file" := by
  exact ⟨rfl, rfl⟩

/-- C3 (amended): parsing skips, without aborting, every entry whose Host,
UserName or Password is missing or empty, and skips with a logged error
every entry whose password fails to decrypt; provided that every entry
whose attributes are present and whose password decrypts also carries a
Port that parses as an integer, resolution returns the connection of the
first fully-valid entry in document order, regardless of the skipped
entries before it and the entries after it.  (Without that proviso a later
entry with an unparseable Port aborts the whole parse, see the
counterexample.) -/
theorem C3_first_valid_amended (decrypt : String → Option String)
    (pre post : List NcxEntry) (e : NcxEntry) (c : ConnDetails)
    (hpre : ∀ e' ∈ pre, entryOutcome decrypt e' = .skipped)
    (he : entryOutcome decrypt e = .conn c)
    (hpost : ∀ e' ∈ post, entryOutcome decrypt e' ≠ .raised) :
    load_navicat_connection decrypt (pre ++ e :: post) = .ok c := by
  obtain ⟨cs, hcs⟩ := parseNcxLoop_no_raise decrypt post hpost
  unfold load_navicat_connection parse_ncx_file
  rw [parseNcxLoop_skip_front decrypt pre (e :: post) hpre,
    parseNcxLoop_cons_conn decrypt e post c he, hcs]
  rfl

/-- Witness for C3 (amended): a file whose first two entries are skipped
(one missing its host, one failing decryption) and whose last entry is
also valid resolves to the third entry, the first fully-valid one. -/
theorem C3_first_valid_witness :
    load_navicat_connection (fun s => if s = "BAD" then none else some s)
      ([{ host := none, userName := some "u", password := some "p",
          port := none, database := none },
        { host := some "h", userName := some "u", password := some "BAD",
          port := none, database := none }] ++
       { host := some "h1", userName := some "u1", password := some "p1",
         port := some "50", database := some "db" } ::
       [{ host := some "h2", userName := some "u2", password := some "p2",
          port := none, database := none }]) =
      .ok { host := "h1", port := 50, userName := "u1", password := "p1",
            database := "db" } :=
  C3_first_valid_amended (fun s => if s = "BAD" then none else some s)
    _ _ _ _ (by decide) (by decide) (by decide)

/-- C4 counterexample: with the driver open succeeding and the probe
returning no row at all (a non-truthy, empty result), connect still
succeeds and leaves the instance connected, and likewise for an empty
row — the probe's result is only logged, never checked. -/
theorem C4_probe_counterexample :
    (connect ⟨.ok 1, .ok none⟩ ⟨none, none⟩).result = .ok () ∧
    (connect ⟨.ok 1, .ok none⟩ ⟨none, none⟩).state.connection = some 1 ∧
    (connect ⟨.ok 1, .ok (some [])⟩ ⟨none, none⟩).result = .ok () ∧
    (connect ⟨.ok 1, .ok (some [])⟩ ⟨none, none⟩).state.connection =
      some 1 := by
  exact ⟨rfl, rfl, rfl, rfl⟩

/-- C4 (amended): on an unconnected instance, after a successful driver
open the SELECT 1 probe is always executed; a probe that raises makes
connect fail with a connection error and leaves the instance unconnected,
but the probe's returned row — including no row or an empty row — is only
logged: connect succeeds and the instance ends connected regardless of the
row's truthiness. -/
theorem C4_probe_amended (o : DriverOracle) (st : ConnState) (n : Nat)
    (h : st.connection = none) (hopen : o.openResult = .ok n) :
    ConnectAction.probeQuery ∈ (connect o st).actions ∧
    (∀ e, o.probeResult = .error e →
      (connect o st).result =
        .error ("Failed to connect to database: " ++ e) ∧
      (connect o st).state.connection = none) ∧
    (∀ row, o.probeResult = .ok row →
      (connect o st).result = .ok () ∧
      (connect o st).state.connection = some n) := by
  unfold connect
  rw [h, hopen]
  cases hp : o.probeResult with
  | error e =>
    refine ⟨by simp, fun e' he' => ?_, fun row hrow => ?_⟩
    · cases he'
      exact ⟨by simp, by simp⟩
    · cases hrow
  | ok row =>
    refine ⟨by simp, fun e' he' => ?_, fun row' hrow' => ?_⟩
    · cases he'
    · cases hrow'
      exact ⟨by simp, by simp⟩

/-- Witness for C4 (amended): a concrete connect with a successful open
and a rowless probe runs the probe, succeeds, and is connected. -/
theorem C4_probe_witness :
    ConnectAction.probeQuery ∈
      (connect ⟨.ok 7, .ok none⟩ ⟨none, none⟩).actions ∧
    (connect ⟨.ok 7, .ok none⟩ ⟨none, none⟩).result = .ok () ∧
    (connect ⟨.ok 7, .ok none⟩ ⟨none, none⟩).state.connection = some 7 := by
  have h := C4_probe_amended ⟨.ok 7, .ok none⟩ ⟨none, none⟩ 7 rfl rfl
  exact ⟨h.1, (h.2.2 none rfl).1, (h.2.2 none rfl).2⟩

/-- C6: whenever connect() on an unconnected instance fails — the driver
open raises (socket, authentication, timeout) or the probe raises — the
partially-constructed connection is discarded before the error propagates:
the instance ends unconnected, and a retry does not take the
already-connected warning path. -/
theorem C6_failed_connect_discards (o : DriverOracle) (st : ConnState)
    (e : String) (h : st.connection = none)
    (hf : (connect o st).result = .error e) :
    (connect o st).state.connection = none ∧
    ∀ o2 : DriverOracle,
      ConnectAction.warnAlreadyConnected ∉
        (connect o2 (connect o st).state).actions := by
  have hstate : (connect o st).state.connection = none := by
    unfold connect at hf ⊢
    rw [h] at hf ⊢
    cases ho : o.openResult with
    | error e2 => simp [ho]
    | ok n =>
      cases hp : o.probeResult with
      | error e3 => simp [ho, hp]
      | ok row =>
        rw [ho] at hf
        rw [hp] at hf
        simp at hf
  refine ⟨hstate, ?_⟩
  intro o2
  generalize hS : (connect o st).state = S
  rw [hS] at hstate
  unfold connect
  rw [hstate]
  cases ho2 : o2.openResult with
  | error e2 => simp
  | ok n2 =>
    cases hp2 : o2.probeResult with
    | error e3 => simp
    | ok row => simp

/-- Witness for C6: a failed open discards the handle and a retry does not
warn that a connection already exists. -/
theorem C6_failed_connect_witness :
    (connect ⟨.error "auth failed", .ok none⟩ ⟨none, none⟩).state.connection =
      none ∧
    ConnectAction.warnAlreadyConnected ∉
      (connect ⟨.ok 3, .ok none⟩
        (connect ⟨.error "auth failed", .ok none⟩ ⟨none, none⟩).state).actions := by
  have h := C6_failed_connect_discards ⟨.error "auth failed", .ok none⟩
    ⟨none, none⟩ "Failed to connect to database: auth failed" rfl rfl
  exact ⟨h.1, h.2 ⟨.ok 3, .ok none⟩⟩

/-- C7: connect() on an already-connected instance is a warning-logging
no-op: it returns with the state unchanged, raises nothing, performs no
driver open, so at most one underlying connection is ever held. -/
theorem C7_connect_idempotent (o : DriverOracle) (st : ConnState) (n : Nat)
    (h : st.connection = some n) :
    connect o st = { state := st, result := .ok (),
                     actions := [.warnAlreadyConnected] } ∧
    ConnectAction.driverOpen ∉ (connect o st).actions := by
  refine ⟨?_, ?_⟩ <;> simp [connect, h]

/-- Witness for C7: a second connect on a connected instance only warns. -/
theorem C7_connect_witness :
    connect ⟨.ok 9, .ok none⟩ ⟨some 5, none⟩ =
      { state := ⟨some 5, none⟩, result := .ok (),
        actions := [ConnectAction.warnAlreadyConnected] } :=
  (C7_connect_idempotent ⟨.ok 9, .ok none⟩ ⟨some 5, none⟩ 5 rfl).1

/-- C8: close is a total function — it never raises, even when the driver
close fails (that outcome is logged) — closing a never-connected instance
does nothing, a second close after a close is a no-op, and after every
close on a reachable state (the source never assigns a non-None _cursor)
both _connection and _cursor are None. -/
theorem C8_close_idempotent (o o2 : Except String Unit) (st : ConnState)
    (hc : st.cursor = none) :
    (close o st).1.connection = none ∧
    (close o st).1.cursor = none ∧
    close o2 (close o st).1 = ((close o st).1, []) ∧
    close o ⟨none, none⟩ = (⟨none, none⟩, []) := by
  cases hcon : st.connection with
  | none =>
    have hst : close o st = (st, []) := by
      unfold close
      rw [hcon]
      rfl
    rw [hst]
    refine ⟨hcon, hc, ?_, rfl⟩
    unfold close
    rw [hcon]
    rfl
  | some hnd =>
    have hst : (close o st).1 = ⟨none, none⟩ := by
      unfold close
      rw [hcon]
      cases o <;> rfl
    rw [hst]
    exact ⟨rfl, rfl, rfl, rfl⟩

/-- Witness for C8: closing a connected instance clears both attributes, a
second close with a failing driver close is a no-op, and closing a
never-connected instance does nothing. -/
theorem C8_close_witness :
    (close (.ok ()) ⟨some 4, none⟩).1.connection = none ∧
    (close (.ok ()) ⟨some 4, none⟩).1.cursor = none ∧
    close (.error "boom") (close (.ok ()) ⟨some 4, none⟩).1 =
      ((close (.ok ()) ⟨some 4, none⟩).1, []) ∧
    close (.ok ()) ⟨none, none⟩ = (⟨none, none⟩, []) :=
  C8_close_idempotent (.ok ()) (.error "boom") ⟨some 4, none⟩ rfl

/-- C5 counterexample: on an unconnected instance execute_query fails with
the typed not-connected ConnectionError, but get_columns fails with the
untyped AttributeError raised by calling .cursor() on None — not the typed
error the claim asserts for all three methods. -/
theorem C5_not_connected_counterexample :
    (execute_query ⟨fun _ _ => .error "unused"⟩ ⟨none, none⟩
        "SELECT 1" []).1 = .error .notConnected ∧
    (get_columns ⟨fun _ _ => .error "unused"⟩ ⟨none, none⟩ none).1 =
      .error .attributeNoneCursor ∧
    PyError.attributeNoneCursor ≠ PyError.notConnected := by
  exact ⟨rfl, rfl, by decide⟩

/-- C5 (amended): on an unconnected instance, execute_query and fetch_data
(for arguments whose validation succeeds) fail with the typed
not-connected ConnectionError and get_columns fails with the untyped
AttributeError from dereferencing None; in all three cases no query text is
executed. -/
theorem C5_not_connected_amended (ex : ExecOracle) (st : ConnState)
    (h : st.connection = none) :
    (∀ q ps, execute_query ex st q ps = (.error .notConnected, [])) ∧
    (∀ table lim sd ed ecs cols qp,
      build_fetch_query table lim sd ed ecs cols = .ok qp →
      fetch_data ex st table lim sd ed ecs cols =
        (.error .notConnected, [])) ∧
    (∀ table tn dn, validateIdent ((pyOptStr table).getD DB_TABLE) = .ok tn →
      validateIdent DB_NAME = .ok dn →
      get_columns ex st table = (.error .attributeNoneCursor, [])) := by
  refine ⟨?_, ?_, ?_⟩
  · intro q ps
    unfold execute_query
    rw [h]
    rfl
  · intro table lim sd ed ecs cols qp hb
    obtain ⟨q, ps⟩ := qp
    unfold fetch_data
    rw [hb]
    unfold execute_query
    rw [h]
    rfl
  · intro table tn dn htn hdn
    unfold get_columns
    rw [htn, hdn, h]
    rfl

/-- Witness for C5 (amended): the three methods on an unconnected instance
with default arguments produce the stated errors and execute nothing. -/
theorem C5_not_connected_witness :
    execute_query ⟨fun _ _ => .error "x"⟩ ⟨none, none⟩ "SELECT 1" [] =
      (.error .notConnected, []) ∧
    fetch_data ⟨fun _ _ => .error "x"⟩ ⟨none, none⟩ none none none none
        none none = (.error .notConnected, []) ∧
    get_columns ⟨fun _ _ => .error "x"⟩ ⟨none, none⟩ none =
      (.error .attributeNoneCursor, []) := by
  have h := C5_not_connected_amended ⟨fun _ _ => .error "x"⟩ ⟨none, none⟩ rfl
  exact ⟨h.1 "SELECT 1" [],
    h.2.1 none none none none none none
      ("SELECT TOP %s * FROM [SmartBusiness].[dbo].[banco_datos] WHERE DocumentosCodigo NOT IN (%s, %s, %s)",
        [SqlParam.pInt 1000, SqlParam.pStr "XY", SqlParam.pStr "AS",
          SqlParam.pStr "TS"]) (by decide),
    h.2.2 none "banco_datos" "SmartBusiness" (by decide) (by decide)⟩

theorem listXor_length (a b : List Nat) :
    (listXor a b).length = min a.length b.length := by
  simp [listXor]

theorem listXor_cancel : ∀ (a b : List Nat), a.length = b.length →
    listXor a (listXor a b) = b := by
  intro a
  induction a with
  | nil =>
    intro b h
    cases b with
    | nil => rfl
    | cons y ys => cases h
  | cons x xs ih =>
    intro b h
    cases b with
    | nil => cases h
    | cons y ys =>
      simp only [listXor, List.zipWith_cons_cons] at *
      rw [Nat.xor_cancel_left]
      have := ih ys (by simpa using h)
      simp only [listXor] at this
      rw [this]

theorem listXor_lt256 : ∀ (a b : List Nat), (∀ x ∈ a, x < 256) →
    (∀ x ∈ b, x < 256) → ∀ x ∈ listXor a b, x < 256 := by
  have h256 : (256 : Nat) = 2 ^ 8 := by norm_num
  intro a
  induction a with
  | nil => intro b _ _ x hx; simp [listXor] at hx
  | cons p ps ih =>
    intro b ha hb x hx
    cases b with
    | nil => simp [listXor] at hx
    | cons q qs =>
      simp only [listXor, List.zipWith_cons_cons, List.mem_cons] at hx
      rcases hx with hx | hx
      · subst hx
        rw [h256]
        exact Nat.xor_lt_two_pow (h256 ▸ ha p (by simp))
          (h256 ▸ hb q (by simp))
      · exact ih qs (fun y hy => ha y (by simp [hy]))
          (fun y hy => hb y (by simp [hy])) x hx

theorem chunks16_flatten (bs : List Nat) : (chunks16 bs).flatten = bs := by
  have H : ∀ (k : Nat) (bs2 : List Nat), bs2.length ≤ k → (chunks16 bs2).flatten = bs2 := by
    intro k
    induction k with
    | zero =>
      intro bs2 h
      cases bs2 with
      | nil => simp [chunks16]
      | cons b rest => simp at h
    | succ k ih =>
      intro bs2 h
      cases bs2 with
      | nil => simp [chunks16]
      | cons b rest =>
        simp only [chunks16, List.flatten_cons]
        rw [ih ((b :: rest).drop 16)
          (by simp only [List.length_drop, List.length_cons] at h ⊢; omega)]
        exact List.take_append_drop 16 (b :: rest)
  exact H bs.length bs le_rfl

theorem chunks16_length16 (bs : List Nat) (hm : bs.length % 16 = 0) :
    ∀ b ∈ chunks16 bs, b.length = 16 := by
  have H : ∀ (k : Nat) (bs2 : List Nat), bs2.length ≤ k →
      bs2.length % 16 = 0 → ∀ b ∈ chunks16 bs2, b.length = 16 := by
    intro k
    induction k with
    | zero =>
      intro bs2 h _ b hb
      cases bs2 with
      | nil => simp [chunks16] at hb
      | cons x rest => simp at h
    | succ k ih =>
      intro bs2 h hm2 b hb
      cases bs2 with
      | nil => simp [chunks16] at hb
      | cons x rest =>
        have hlen : 16 ≤ (x :: rest).length := by
          simp only [List.length_cons]
          simp only [List.length_cons] at hm2
          omega
        simp only [chunks16, List.mem_cons] at hb
        rcases hb with hb | hb
        · subst hb
          simp only [List.length_take]
          omega
        · exact ih ((x :: rest).drop 16)
            (by simp only [List.length_drop, List.length_cons] at h ⊢; omega)
            (by simp only [List.length_drop]; omega) b hb
  exact H bs.length bs le_rfl hm

theorem chunks16_mem_lt (bs : List Nat) (hlt : ∀ x ∈ bs, x < 256) :
    ∀ b ∈ chunks16 bs, ∀ x ∈ b, x < 256 := by
  have H : ∀ (k : Nat) (bs2 : List Nat), bs2.length ≤ k →
      (∀ x ∈ bs2, x < 256) → ∀ b ∈ chunks16 bs2, ∀ x ∈ b, x < 256 := by
    intro k
    induction k with
    | zero =>
      intro bs2 h _ b hb
      cases bs2 with
      | nil => simp [chunks16] at hb
      | cons x rest => simp at h
    | succ k ih =>
      intro bs2 h hl b hb
      cases bs2 with
      | nil => simp [chunks16] at hb
      | cons x rest =>
        simp only [chunks16, List.mem_cons] at hb
        rcases hb with hb | hb
        · subst hb
          exact fun y hy => hl y (List.take_subset 16 (x :: rest) hy)
        · exact ih ((x :: rest).drop 16)
            (by simp only [List.length_drop, List.length_cons] at h ⊢; omega)
            (fun y hy => hl y (List.drop_subset 16 (x :: rest) hy)) b hb
  exact H bs.length bs le_rfl hlt

theorem chunks16_flatten_blocks : ∀ (bs : List (List Nat)),
    (∀ b ∈ bs, b.length = 16) → chunks16 bs.flatten = bs := by
  intro bs
  induction bs with
  | nil => intro _; simp [chunks16]
  | cons b rest ih =>
    intro h
    have hb : b.length = 16 := h b (by simp)
    obtain ⟨x, xs, rfl⟩ : ∃ x xs, b = x :: xs := by
      cases b with
      | nil => simp at hb
      | cons x xs => exact ⟨x, xs, rfl⟩
    rw [List.flatten_cons, List.cons_append]
    simp only [chunks16]
    rw [← List.cons_append, List.take_left' hb, List.drop_left' hb,
      ih (fun b2 hb2 => h b2 (by simp [hb2]))]

theorem cbcEncBlocks_props (E : List Nat → List Nat)
    (hlen : ∀ b, b.length = 16 → (E b).length = 16)
    (hbyte : ∀ b, b.length = 16 → (∀ x ∈ b, x < 256) → ∀ x ∈ E b, x < 256) :
    ∀ (ms : List (List Nat)) (iv : List Nat), iv.length = 16 →
      (∀ x ∈ iv, x < 256) →
      (∀ m ∈ ms, m.length = 16 ∧ ∀ x ∈ m, x < 256) →
      ∀ c ∈ cbcEncBlocks E iv ms, c.length = 16 ∧ ∀ x ∈ c, x < 256 := by
  intro ms
  induction ms with
  | nil => intro iv _ _ _ c hc; simp [cbcEncBlocks] at hc
  | cons m ms ih =>
    intro iv hiv hivb hm c hc
    have hm1 : m.length = 16 := (hm m (by simp)).1
    have hm2 : ∀ x ∈ m, x < 256 := (hm m (by simp)).2
    have hx16 : (listXor iv m).length = 16 := by
      rw [listXor_length, hiv, hm1]
      simp
    have hc16 : (E (listXor iv m)).length = 16 := hlen _ hx16
    have hcb : ∀ x ∈ E (listXor iv m), x < 256 :=
      hbyte _ hx16 (listXor_lt256 iv m hivb hm2)
    simp only [cbcEncBlocks, List.mem_cons] at hc
    rcases hc with hc | hc
    · subst hc
      exact ⟨hc16, hcb⟩
    · exact ih (E (listXor iv m)) hc16 hcb
        (fun m2 h2 => hm m2 (by simp [h2])) c hc

theorem cbcDec_cbcEnc (E D : List Nat → List Nat)
    (hlen : ∀ b, b.length = 16 → (E b).length = 16)
    (hinv : ∀ b, b.length = 16 → D (E b) = b) :
    ∀ (ms : List (List Nat)) (iv : List Nat), iv.length = 16 →
      (∀ m ∈ ms, m.length = 16) →
      cbcDecBlocks D iv (cbcEncBlocks E iv ms) = ms := by
  intro ms
  induction ms with
  | nil => intro iv _ _; rfl
  | cons m ms ih =>
    intro iv hiv hm
    have hm1 : m.length = 16 := hm m (by simp)
    have hx16 : (listXor iv m).length = 16 := by
      rw [listXor_length, hiv, hm1]
      simp
    simp only [cbcEncBlocks, cbcDecBlocks]
    rw [hinv _ hx16, listXor_cancel iv m (by omega),
      ih (E (listXor iv m)) (hlen _ hx16) (fun m2 h2 => hm m2 (by simp [h2]))]

theorem pkcs7pad_length (bs : List Nat) : (pkcs7pad bs).length % 16 = 0 := by
  simp only [pkcs7pad, List.length_append, List.length_replicate]
  omega

theorem pkcs7pad_lt256 (bs : List Nat) (h : ∀ x ∈ bs, x < 256) :
    ∀ x ∈ pkcs7pad bs, x < 256 := by
  intro x hx
  simp only [pkcs7pad, List.mem_append, List.mem_replicate] at hx
  rcases hx with hx | hx
  · exact h x hx
  · omega

theorem pkcs7_roundtrip (bs : List Nat) :
    pkcs7unpad (pkcs7pad bs) = some bs := by
  unfold pkcs7pad pkcs7unpad
  have hn1 : 1 ≤ 16 - bs.length % 16 := by omega
  have hn16 : 16 - bs.length % 16 ≤ 16 := by omega
  have hrep : List.replicate (16 - bs.length % 16) (16 - bs.length % 16) =
      List.replicate (16 - bs.length % 16 - 1) (16 - bs.length % 16) ++
        [16 - bs.length % 16] := by
    rw [← List.replicate_succ']
    congr 1
    omega
  have hlast : (bs ++ List.replicate (16 - bs.length % 16)
      (16 - bs.length % 16)).getLast? = some (16 - bs.length % 16) := by
    rw [hrep, ← List.append_assoc, List.getLast?_concat]
  rw [hlast]
  simp only []
  have hlen : (bs ++ List.replicate (16 - bs.length % 16)
      (16 - bs.length % 16)).length = bs.length + (16 - bs.length % 16) := by
    simp [List.length_append, List.length_replicate]
  have hdrop : (bs ++ List.replicate (16 - bs.length % 16)
        (16 - bs.length % 16)).drop bs.length =
      List.replicate (16 - bs.length % 16) (16 - bs.length % 16) := by
    rw [List.drop_left]
  rw [if_pos]
  · rw [hlen]
    have : bs.length + (16 - bs.length % 16) - (16 - bs.length % 16) =
        bs.length := by omega
    rw [this, List.take_left]
  · refine ⟨?_, hn1, hn16, ?_, ?_⟩
    · rw [hlen]; omega
    · rw [hlen]; omega
    · rw [hlen]
      have : bs.length + (16 - bs.length % 16) - (16 - bs.length % 16) =
          bs.length := by omega
      rw [this, hdrop]
      simp [List.all_eq_true, List.mem_replicate]

theorem hexDigitVal_hexDigit : ∀ m < 16, hexDigitVal (hexDigit m) = some m := by
  decide

theorem hexDecode_hexEncode : ∀ (bs : List Nat), (∀ b ∈ bs, b < 256) →
    hexDecode (hexEncode bs) = some bs := by
  intro bs
  induction bs with
  | nil => intro _; rfl
  | cons b rest ih =>
    intro hb
    have hb256 : b < 256 := hb b (by simp)
    simp only [hexEncode, List.flatMap_cons, List.cons_append,
      List.nil_append]
    simp only [hexDecode]
    rw [hexDigitVal_hexDigit (b / 16) (by omega),
      hexDigitVal_hexDigit (b % 16) (by omega)]
    have ihr := ih (fun y hy => hb y (by simp [hy]))
    simp only [hexEncode] at ihr
    rw [ihr]
    simp only []
    have : 16 * (b / 16) + b % 16 = b := by omega
    rw [this]

theorem utf8EncodeChar_lt256 (n : Nat) (h : n < 1114112) :
    ∀ x ∈ utf8EncodeChar n, x < 256 := by
  intro x hx
  unfold utf8EncodeChar at hx
  split_ifs at hx <;> simp at hx <;> omega

theorem utf8Decode_encodeChar (n : Nat) (tail : List Nat)
    (hv : n < 55296 ∨ (57343 < n ∧ n < 1114112)) :
    utf8Decode (utf8EncodeChar n ++ tail) =
      (utf8Decode tail).map (fun vs => n :: vs) := by
  by_cases h1 : n < 128
  · have e1 : utf8EncodeChar n = [n] := by simp [utf8EncodeChar, h1]
    rw [e1, List.cons_append, List.nil_append, utf8Decode.eq_2, if_pos h1]
  · by_cases h2 : n < 2048
    · have e1 : utf8EncodeChar n = [192 + n / 64, 128 + n % 64] := by
        simp [utf8EncodeChar, h1, h2]
      rw [e1, List.cons_append, List.cons_append, List.nil_append,
        utf8Decode.eq_2, if_neg (by omega), if_neg (by omega),
        if_pos (by omega), utf8Dec2.eq_1,
        if_pos (by unfold utf8Cont utf8Val2; omega)]
      have hval : utf8Val2 (192 + n / 64) (128 + n % 64) = n := by
        unfold utf8Val2
        omega
      rw [hval]
    · by_cases h3 : n < 65536
      · have e1 : utf8EncodeChar n =
            [224 + n / 4096, 128 + n / 64 % 64, 128 + n % 64] := by
          simp [utf8EncodeChar, h1, h2, h3]
        rw [e1, List.cons_append, List.cons_append, List.cons_append,
          List.nil_append, utf8Decode.eq_2, if_neg (by omega),
          if_neg (by omega), if_neg (by omega), if_pos (by omega),
          utf8Dec3.eq_1,
          if_pos (by unfold utf8Cont utf8Val3; omega)]
        have hval : utf8Val3 (224 + n / 4096) (128 + n / 64 % 64)
            (128 + n % 64) = n := by
          unfold utf8Val3
          omega
        rw [hval]
      · have e1 : utf8EncodeChar n =
            [240 + n / 262144, 128 + n / 4096 % 64, 128 + n / 64 % 64,
             128 + n % 64] := by
          simp [utf8EncodeChar, h1, h2, h3]
        rw [e1, List.cons_append, List.cons_append, List.cons_append,
          List.cons_append, List.nil_append, utf8Decode.eq_2,
          if_neg (by omega), if_neg (by omega), if_neg (by omega),
          if_neg (by omega), if_pos (by omega), utf8Dec4.eq_1,
          if_pos (by unfold utf8Cont utf8Val4; omega)]
        have hval : utf8Val4 (240 + n / 262144) (128 + n / 4096 % 64)
            (128 + n / 64 % 64) (128 + n % 64) = n := by
          unfold utf8Val4
          omega
        rw [hval]

theorem utf8Decode_encode (p : List Char) :
    utf8Decode (utf8Encode p) = some (p.map Char.toNat) := by
  induction p with
  | nil => simp [utf8Encode, utf8Decode]
  | cons c cs ih =>
    have hv : c.toNat < 55296 ∨ (57343 < c.toNat ∧ c.toNat < 1114112) :=
      c.valid
    simp only [utf8Encode, List.flatMap_cons]
    have hstep := utf8Decode_encodeChar c.toNat
      (cs.flatMap (fun x => utf8EncodeChar x.toNat)) hv
    rw [hstep]
    simp only [utf8Encode] at ih
    rw [ih]
    simp

theorem map_ofNat_toNat (p : List Char) :
    (p.map Char.toNat).map (fun n => Char.ofNat n) = p := by
  induction p with
  | nil => rfl
  | cons c cs ih => simp [Char.ofNat_toNat, ih]

theorem flatten_blocks_mod16 : ∀ (bs : List (List Nat)),
    (∀ b ∈ bs, b.length = 16) → bs.flatten.length % 16 = 0 := by
  intro bs
  induction bs with
  | nil => intro _; rfl
  | cons b rest ih =>
    intro h
    have hb : b.length = 16 := h b (by simp)
    have hr := ih (fun b2 h2 => h b2 (by simp [h2]))
    simp only [List.flatten_cons, List.length_append, hb]
    omega

/-- C9: decryption round-trips — for every pair (E, D) of block maps that
behave like the AES-128 block cipher under the fixed hard-coded key
(E preserves 16-byte blocks of bytes and D inverts E on them), and every
plaintext password p, UTF-8 encoding p, PKCS#7 padding, CBC-encrypting
with the fixed IV, hex-encoding, and passing the result to the decryptor's
AES fallback yields p again: decrypt(encrypt(p)) = p. -/
theorem C9_decrypt_roundtrip (E D : List Nat → List Nat)
    (hlen : ∀ b, b.length = 16 → (E b).length = 16)
    (hbyte : ∀ b, b.length = 16 → (∀ x ∈ b, x < 256) → ∀ x ∈ E b, x < 256)
    (hinv : ∀ b, b.length = 16 → D (E b) = b)
    (p : List Char) :
    decrypt_navicat_password_aes D (encrypt_navicat_password_aes E p) =
      some p := by
  unfold encrypt_navicat_password_aes decrypt_navicat_password_aes
  have hmsg16 : (pkcs7pad (utf8Encode p)).length % 16 = 0 :=
    pkcs7pad_length _
  have hmsglt : ∀ x ∈ pkcs7pad (utf8Encode p), x < 256 := by
    apply pkcs7pad_lt256
    intro x hx
    simp only [utf8Encode, List.mem_flatMap] at hx
    obtain ⟨c, hc, hxc⟩ := hx
    have hcv : c.toNat < 55296 ∨ (57343 < c.toNat ∧ c.toNat < 1114112) :=
      c.valid
    exact utf8EncodeChar_lt256 c.toNat (by omega) x hxc
  have hblocks := chunks16_length16 (pkcs7pad (utf8Encode p)) hmsg16
  have hblockslt := chunks16_mem_lt (pkcs7pad (utf8Encode p)) hmsglt
  have hivlen : navicatIV.length = 16 := by decide
  have hivlt : ∀ x ∈ navicatIV, x < 256 := by decide
  have hencprops := cbcEncBlocks_props E hlen hbyte
    (chunks16 (pkcs7pad (utf8Encode p))) navicatIV hivlen hivlt
    (fun m hm => ⟨hblocks m hm, hblockslt m hm⟩)
  have hctlt : ∀ x ∈ (cbcEncBlocks E navicatIV
      (chunks16 (pkcs7pad (utf8Encode p)))).flatten, x < 256 := by
    intro x hx
    obtain ⟨c, hc, hxc⟩ := List.mem_flatten.mp hx
    exact (hencprops c hc).2 x hxc
  have hctlen16 : ∀ b ∈ cbcEncBlocks E navicatIV
      (chunks16 (pkcs7pad (utf8Encode p))), b.length = 16 :=
    fun b hb => (hencprops b hb).1
  rw [hexDecode_hexEncode _ hctlt]
  simp only []
  rw [if_pos (flatten_blocks_mod16 _ hctlen16)]
  rw [chunks16_flatten_blocks _ hctlen16]
  rw [cbcDec_cbcEnc E D hlen hinv (chunks16 (pkcs7pad (utf8Encode p)))
    navicatIV hivlen hblocks]
  rw [chunks16_flatten]
  rw [pkcs7_roundtrip]
  simp only []
  rw [utf8Decode_encode]
  simp only []
  rw [map_ofNat_toNat]

/-- Witness for C9: instantiating the block cipher with the identity
permutation (which satisfies the block-length and inverse hypotheses) and
a concrete password, the decryptor's AES fallback recovers the
password. -/
theorem C9_decrypt_witness :
    decrypt_navicat_password_aes id
      (encrypt_navicat_password_aes id ['p', 'w', '1']) =
      some ['p', 'w', '1'] :=
  C9_decrypt_roundtrip id id (fun _ h => h) (fun _ _ hb => hb)
    (fun _ _ => rfl) ['p', 'w', '1']
